import Mathlib

/-!
# Verification of the analyze-sgf record/engine bridge

Shallow embedding of the core of the `analyze-sgf` repository
(`src/sgfconv.js`, `src/katagoconv.js`, `src/game-report.js`) and proofs
about it.

JavaScript strings are modelled as lists of Unicode code points
(`JStr := List Nat`): indexing `s[i]`/`charCodeAt(i)` becomes `List.getD`,
`substring` becomes `drop`/`take`, `split(c)` becomes `List.splitOn`,
`join(c)` becomes `List.intercalate`, and regular expressions become the
explicit scans they denote.  Numeric strings are produced/consumed through
`intRepr`/`jsParseIntDec`, which model `Number.prototype.toString` and
`parseInt(s, 10)` on the integral, whitespace-free strings occurring here.
Engine win rates are modelled as rationals.

Functions are total exactly where the JavaScript is total: none of the
embedded source functions throws, so none of the embeddings is
`Except`-valued.  Definitions named after a source function are direct
translations of that function; definitions whose name starts with `spec`
follow the specification's words instead and exist only to be compared
with the source-derived ones.
-/

namespace AnalyzeSGF

/-- A JavaScript string, as its list of code points. -/
abbrev JStr := List Nat

/-- Code points of a Lean string literal (for readable concrete inputs). -/
def codes (s : String) : JStr := s.toList.map Char.toNat

/-- ASCII `String.prototype.toUpperCase` on one code point. -/
def jsToUpper (c : Nat) : Nat := if 97 ≤ c ∧ c ≤ 122 then c - 32 else c

/-- ASCII `String.prototype.toLowerCase` on one code point. -/
def jsToLower (c : Nat) : Nat := if 65 ≤ c ∧ c ≤ 90 then c + 32 else c

/-- Decimal digits, structurally recursive on a fuel argument so that the
kernel can evaluate it; `fuel ≥ n` always suffices since `n / 10 < n`. -/
def natDigitsAux : Nat → Nat → List Nat
  | 0, n => [48 + n % 10]
  | fuel + 1, n => if n < 10 then [48 + n] else natDigitsAux fuel (n / 10) ++ [48 + n % 10]

/-- Decimal digits (code points) of a natural number, most significant first. -/
def natDigits (n : Nat) : List Nat := natDigitsAux n n

/-- `Number.prototype.toString` for an integral number: optional minus sign
followed by decimal digits. -/
def intRepr (i : Int) : List Nat :=
  if i < 0 then 45 :: natDigits i.natAbs else natDigits i.toNat

/-- Is this code point a decimal digit? -/
def isDigitCode (c : Nat) : Bool := 48 ≤ c && c ≤ 57

/-- Value of a nonempty run of decimal digit code points. -/
def digitsToNat (ds : List Nat) : Nat := ds.foldl (fun a c => a * 10 + (c - 48)) 0

/-- `parseInt(s, 10)`: optional sign, then a maximal run of decimal digits;
`none` models `NaN`.  (Leading whitespace, which `parseInt` would skip, does
not occur in the strings of this development.) -/
def jsParseIntDec (l : JStr) : Option Int :=
  let core : Int → JStr → Option Int := fun sign rest =>
    let ds := rest.takeWhile isDigitCode
    if ds.isEmpty then none else some (sign * (digitsToNat ds : Int))
  match l with
  | 45 :: rest => core (-1) rest
  | 43 :: rest => core 1 rest
  | _ => core 1 l

/-- `ToUint16` as applied by `String.fromCharCode`. -/
def fromCharCode (i : Int) : Nat := (i % 65536).toNat

/-! ## `src/sgfconv.js`: coordinate conversions -/

/-- `iaToJ1` (sgfconv.js): RAW two-letter coordinate to COMPACT `A1`-style.
`nextChar`/`prevChar` are inlined as `+ 1`/`- 1` on the code point.
Covers strings where both indexed positions exist, as in the source's use. -/
def iaToJ1 (value : JStr) : JStr :=
  let v := value.map jsToUpper
  if 73 ≤ v.getD 0 0 then
    (v.getD 0 0 + 1) :: intRepr ((v.getD 1 0 : Int) - 64)
  else
    v.getD 0 0 :: intRepr ((v.getD 1 0 : Int) - 64)

/-- `iaToJ19` (sgfconv.js): RAW coordinate to DISPLAY form (row from top of a
19×19 board, `84 - charCodeAt(1)`). -/
def iaToJ19 (value : JStr) : JStr :=
  let v := value.map jsToUpper
  if 73 ≤ v.getD 0 0 then
    (v.getD 0 0 + 1) :: intRepr (84 - (v.getD 1 0 : Int))
  else
    v.getD 0 0 :: intRepr (84 - (v.getD 1 0 : Int))

/-- `iaFromJ1` (sgfconv.js): COMPACT `A1`-style coordinate back to RAW.
`String.fromCharCode(parseInt(...) + 96)`; `parseInt` returning `NaN` makes
`fromCharCode` produce code point 0. -/
def iaFromJ1 (v : JStr) : JStr :=
  let row : Nat :=
    match jsParseIntDec (v.drop 1) with
    | some k => fromCharCode (k + 96)
    | none => 0
  if 74 ≤ v.getD 0 0 then
    [jsToLower (v.getD 0 0) - 1, row]
  else
    [jsToLower (v.getD 0 0), row]

/-! ## `src/sgfconv.js`: pass detection and property injection -/

/-- Word character for the regex word boundary `\b`. -/
def isWordCode (c : Nat) : Bool :=
  (48 ≤ c && c ≤ 57) || (65 ≤ c && c ≤ 90) || (97 ≤ c && c ≤ 122) || c == 95

/-- A `\b[BW]` match can start here: current code point is `B` or `W` and the
previous code point (if any) is not a word character. -/
def bwStart (prev : Option Nat) (c : Nat) : Bool :=
  (c == 66 || c == 87) &&
    (match prev with
     | some p => ! isWordCode p
     | none => true)

/-- Rest of the pattern `\[[^\]]`: an opening bracket then a non-`]`. -/
def startsCoord : JStr → Bool
  | 91 :: d :: _ => d != 93
  | _ => false

/-- Rest of the pattern `\[tt\]`. -/
def startsTT : JStr → Bool
  | 91 :: 116 :: 116 :: 93 :: _ => true
  | _ => false

/-- Scan for the two move regexes of `sgfconv.js`, tracking the previous code
point for the word boundary; returns the match index relative to the scan
start, `none` for no match (JavaScript `search` result `-1`). -/
def searchMoveAux (tt : Bool) (prev : Option Nat) : JStr → Option Nat
  | [] => none
  | c :: rest =>
    if bwStart prev c && (if tt then startsTT rest else startsCoord rest) then some 0
    else (searchMoveAux tt (some c) rest).map (· + 1)

/-- `move.search(/\b[BW]\[[^\]]/)` of `sgfconv.js`. -/
def searchMoveStart (move : JStr) : Option Nat := searchMoveAux false none move

/-- `move.search(/\b[BW]\[tt\]/)` of `sgfconv.js`. -/
def searchPassTT (move : JStr) : Option Nat := searchMoveAux true none move

/-- `isNotPassingMove` (sgfconv.js): below board size 20 a move node must
match `\b[BW]\[[^\]]` and not match `\b[BW]\[tt\]`; from size 20 up only the
first regex is consulted. -/
def isNotPassingMove (move : JStr) (sz : Int := 19) : Bool :=
  if sz < 20 then (searchMoveStart move).isSome && (searchPassTT move).isNone
  else (searchMoveStart move).isSome

/-- `hasPassingMoves` (sgfconv.js): some nonempty `;`-separated node of the
sequence is a passing move. -/
def hasPassingMoves (seq : JStr) (sz : Int := 19) : Bool :=
  ((seq.splitOn 59).filter (fun v => ! v.isEmpty)).any fun node => ! isNotPassingMove node sz

/-- `indexOfRegex(seq, /[^\\]\]/, start)`, the scan inside `addProperty`:
first index (relative to the scan start) of a two-code-point window
[non-backslash, `]`]. -/
def searchNonEscBracket : JStr → Option Nat
  | a :: b :: rest =>
    if a ≠ 92 ∧ b = 93 then some 0
    else (searchNonEscBracket (b :: rest)).map (· + 1)
  | _ => none

/-- `addProperty` (sgfconv.js): find the window from `max(0, index - 1)`
(natural subtraction) and splice `mark` in right after it; the empty string
models the `''` returned on failure. -/
def addProperty (seq mark : JStr) (index : Nat) : JStr :=
  match (searchNonEscBracket (seq.drop (index - 1))).map (· + (index - 1)) with
  | some start => seq.take (start + 2) ++ mark ++ seq.drop (start + 2)
  | none => []

/-- `comment.replace(/\]/g, '\\]')`. -/
def escapeBrackets : JStr → JStr
  | [] => []
  | 93 :: rest => 92 :: 93 :: escapeBrackets rest
  | c :: rest => c :: escapeBrackets rest

/-- `addComment` (sgfconv.js): wrap the escaped comment in `C[...]` and add
it as a property. -/
def addComment (seq comment : JStr) (index : Nat := 0) : JStr :=
  addProperty seq (67 :: 91 :: (escapeBrackets comment ++ [93])) index

/-- C1: COMPACT→RAW inverts RAW→COMPACT on every valid RAW coordinate: both
letters within a board of size up to 25 (columns and rows `a`..`y`), the
column letter not being the reserved letter `i`. -/
theorem iaToJ1_roundtrip :
    ∀ a ∈ List.range' 97 25, a ≠ 105 → ∀ b ∈ List.range' 97 25,
      iaFromJ1 (iaToJ1 [a, b]) = [a, b] := by decide

/-- C1 witness: the round trip at the concrete RAW coordinate `bc`. -/
theorem iaToJ1_roundtrip_witness : iaFromJ1 (iaToJ1 [98, 99]) = [98, 99] :=
  iaToJ1_roundtrip 98 (by decide) (by decide) 99 (by decide)

/-- On a plain move node `X[cd]` with lowercase-letter coordinates the move
regex always matches. -/
theorem searchMoveStart_letters :
    ∀ bw ∈ [66, 87], ∀ c ∈ List.range' 97 26, ∀ d ∈ List.range' 97 26,
      (searchMoveStart [bw, 91, c, d, 93]).isSome = true := by decide

/-- On a plain move node `X[cd]` with lowercase-letter coordinates the `tt`
regex fails to match exactly when the coordinate is not `tt`. -/
theorem searchPassTT_letters :
    ∀ bw ∈ [66, 87], ∀ c ∈ List.range' 97 26, ∀ d ∈ List.range' 97 26,
      (searchPassTT [bw, 91, c, d, 93]).isNone = ! (c == 116 && d == 116) := by decide

/-- C3: `isNotPassingMove` classifies a plain move node as a pass exactly when
its coordinate is empty or — only when the board size is below 20 — equals
`tt`; with the spec's concrete cases on sizes 19 and 25. -/
theorem isNotPassingMove_pass_iff :
    (∀ (sz : Int) (bw c d : Nat), bw = 66 ∨ bw = 87 →
      97 ≤ c → c ≤ 122 → 97 ≤ d → d ≤ 122 →
      (isNotPassingMove [bw, 91, c, d, 93] sz = false ↔ sz < 20 ∧ c = 116 ∧ d = 116)) ∧
    (∀ (sz : Int) (bw : Nat), bw = 66 ∨ bw = 87 →
      isNotPassingMove [bw, 91, 93] sz = false) ∧
    isNotPassingMove (codes "B[]") 19 = false ∧
    isNotPassingMove (codes "B[tt]") 19 = false ∧
    isNotPassingMove (codes "B[cc]") 19 = true ∧
    isNotPassingMove (codes "B[]") 25 = false ∧
    isNotPassingMove (codes "B[tt]") 25 = true ∧
    isNotPassingMove (codes "B[cc]") 25 = true := by
  refine ⟨?_, ?_, by decide, by decide, by decide, by decide, by decide, by decide⟩
  · intro sz bw c d hbw hc1 hc2 hd1 hd2
    have hbw' : bw ∈ [66, 87] := by rcases hbw with rfl | rfl <;> simp
    have hc : c ∈ List.range' 97 26 := by rw [List.mem_range'_1]; omega
    have hd : d ∈ List.range' 97 26 := by rw [List.mem_range'_1]; omega
    have h1 := searchMoveStart_letters bw hbw' c hc d hd
    have h2 := searchPassTT_letters bw hbw' c hc d hd
    by_cases hsz : sz < 20
    · simp [isNotPassingMove, hsz, h1, h2]
    · simp [isNotPassingMove, hsz, h1]
  · intro sz bw hbw
    rcases hbw with rfl | rfl <;> by_cases hsz : sz < 20 <;>
      simp [isNotPassingMove, hsz] <;> decide

/-- C3 witness: the classification applied to the node `B[cc]` on size 19. -/
theorem isNotPassingMove_pass_iff_witness :
    ((66 : Nat) = 66 ∨ (66 : Nat) = 87) ∧
    (isNotPassingMove [66, 91, 99, 99, 93] 19 = false ↔ (19 : Int) < 20 ∧ 99 = 116 ∧ 99 = 116) :=
  ⟨Or.inl rfl,
   isNotPassingMove_pass_iff.1 19 66 99 99 (Or.inl rfl)
     (by decide) (by decide) (by decide) (by decide)⟩

/-! ## C6: property injection -/

/-- Specification-side scan: walk the string remembering the previous code
point and report the first `]` whose immediately preceding code point is not a
backslash (a `]` with no preceding code point counts as unescaped). -/
def unescapedScan : Option Nat → JStr → Option Nat
  | _, [] => none
  | prev, c :: rest =>
    if c = 93 ∧ prev ≠ some 92 then some 0
    else (unescapedScan (some c) rest).map (· + 1)

/-- Position of the first unescaped `]` at or after position `s` of `seq`,
where "unescaped" consults the code point before the bracket even when that
code point lies before `s`. -/
def firstUnescapedBracketFrom (seq : JStr) (s : Nat) : Option Nat :=
  (unescapedScan (if s = 0 then none else some (seq.getD (s - 1) 0)) (seq.drop s)).map (· + s)

/-- The claim's reading of `addProperty`: insert right after the first
unescaped `]` at or after `max(0, index - 1)`. -/
def specClaimAddProperty (seq mark : JStr) (index : Nat) : JStr :=
  match firstUnescapedBracketFrom seq (index - 1) with
  | some q => seq.take (q + 1) ++ mark ++ seq.drop (q + 1)
  | none => []

/-- The amended reading: the bracket inserted after is the first unescaped
`]` strictly after the scan offset `max(0, index - 1)`, its preceding
code point included in the scanned region. -/
def specAmendedAddProperty (seq mark : JStr) (index : Nat) : JStr :=
  match firstUnescapedBracketFrom seq (index - 1 + 1) with
  | some q => seq.take (q + 1) ++ mark ++ seq.drop (q + 1)
  | none => []

/-- The window scan of the source equals the specification-side
previous-code-point scan started one position later. -/
theorem unescapedScan_eq_searchNonEscBracket (l : JStr) :
    ∀ a, unescapedScan (some a) l = searchNonEscBracket (a :: l) := by
  induction l with
  | nil => intro a; rfl
  | cons b t ih =>
    intro a
    by_cases hb : b = 93 <;> by_cases ha : a = 92 <;>
      simp [unescapedScan, searchNonEscBracket, hb, ha, ih]

/-- C6 (amended): `addProperty` inserts the property text right after the
first `]` strictly after the scan offset whose preceding code point is not a
backslash (and returns the empty string when there is none); the claim's two
concrete examples hold as stated. -/
theorem addProperty_eq_amended :
    (∀ (seq mark : JStr) (index : Nat),
      addProperty seq mark index = specAmendedAddProperty seq mark index) ∧
    addProperty (codes "(;W[aa];B[bb];W[cc])") (codes "TE[1]") 0 =
      codes "(;W[aa]TE[1];B[bb];W[cc])" ∧
    addComment (codes "(;W[aa];B[bb])") (codes "hey[]") 0 =
      codes "(;W[aa]C[hey[\\]];B[bb])" := by
  refine ⟨?_, by decide, by decide⟩
  intro seq mark index
  rw [addProperty, specAmendedAddProperty, firstUnescapedBracketFrom]
  by_cases h : seq.length ≤ index - 1
  · rw [List.drop_eq_nil_of_le h, List.drop_eq_nil_of_le (by omega)]
    rfl
  · push_neg at h
    rw [List.drop_eq_getElem_cons h, if_neg (show ¬ index - 1 + 1 = 0 by omega),
      Nat.add_sub_cancel, List.getD_eq_getElem seq 0 h,
      unescapedScan_eq_searchNonEscBracket]
    cases hs : searchNonEscBracket (seq[index - 1] :: seq.drop (index - 1 + 1)) with
    | none => rfl
    | some p =>
      simp only [Option.map_some']
      have : p + (index - 1 + 1) + 1 = p + (index - 1) + 2 := by omega
      rw [this]

/-- C6 witness for the amended equivalence: the concrete injection from the
spec, checked through the amended characterization. -/
theorem addProperty_eq_amended_witness :
    addProperty (codes "(;W[aa];B[bb];W[cc])") (codes "TE[1]") 7 =
      specAmendedAddProperty (codes "(;W[aa];B[bb];W[cc])") (codes "TE[1]") 7 :=
  addProperty_eq_amended.1 (codes "(;W[aa];B[bb];W[cc])") (codes "TE[1]") 7

/-- C6 counterexample: in `a]b]` with approximate offset 2, the first
unescaped `]` at or after `max(0, 2 - 1) = 1` is the one at position 1, so the
claim mandates `a]Xb]`; the code's two-code-point window never matches a
bracket at the scan offset itself and yields `a]b]X`. -/
theorem addProperty_claim_counterexample :
    addProperty (codes "a]b]") (codes "X") 2 = codes "a]b]X" ∧
    specClaimAddProperty (codes "a]b]") (codes "X") 2 = codes "a]Xb]" ∧
    addProperty (codes "a]b]") (codes "X") 2 ≠
      specClaimAddProperty (codes "a]b]") (codes "X") 2 := by decide

/-! ## `src/katagoconv.js`: turn-number map (C2) -/

/-- The nonempty `;`-separated nodes of a sequence
(`seq.split(';').filter((v) => v)`). -/
def seqNodes (seq : JStr) : List JStr :=
  (seq.splitOn 59).filter fun v => ! v.isEmpty

/-- `makeRealTurnNumbersMap` (katagoconv.js): prefix 0, then for each node of
the sequence its 1-based position if it is a non-pass move (default board
size) and `-1` otherwise, keeping only the non-`-1` entries. -/
def makeRealTurnNumbersMap (seq : JStr) : List Int :=
  (0 : Int) ::
    (((seqNodes seq).enum.map fun p =>
        if isNotPassingMove p.2 then (p.1 : Int) + 1 else -1).filter fun v => v != -1)

/-- Specification-side entry: the real (pass-inclusive, 1-based) index of an
indexed node when it is a non-pass move. -/
def realTurnEntry (p : Nat × JStr) : Option Int :=
  if isNotPassingMove p.2 then some ((p.1 : Int) + 1) else none

/-- Specification-side map body: the real indices of the non-pass moves, in
order. -/
def realTurnsOfNonPass (nodes : List JStr) : List Int :=
  nodes.enum.filterMap realTurnEntry

/-- The `-1`-sentinel map/filter of the source equals the sentinel-free
`filterMap` formulation. -/
theorem map_filter_eq_filterMap (l : List (Nat × JStr)) :
    ((l.map fun p => if isNotPassingMove p.2 then (p.1 : Int) + 1 else -1).filter
        fun v => v != -1) =
      l.filterMap realTurnEntry := by
  induction l with
  | nil => rfl
  | cons x xs ih =>
    by_cases hx : isNotPassingMove x.2
    · have hne : ((x.1 : Int) + 1) ≠ -1 := by omega
      simp [realTurnEntry, hx, hne, ih]
    · simp [realTurnEntry, hx, ih]

/-- Real-turn entries harvested from an enumeration starting at `k` form a
strictly increasing list of values above `k`. -/
theorem sorted_realTurns_enumFrom (nodes : List JStr) :
    ∀ k : Nat,
      List.Sorted (· < ·) ((List.enumFrom k nodes).filterMap realTurnEntry) ∧
      ∀ v ∈ (List.enumFrom k nodes).filterMap realTurnEntry, (k : Int) < v := by
  induction nodes with
  | nil => intro k; exact ⟨List.sorted_nil, by simp⟩
  | cons n ns ih =>
    intro k
    obtain ⟨ihs, ihb⟩ := ih (k + 1)
    have hstep : List.enumFrom k (n :: ns) = (k, n) :: List.enumFrom (k + 1) ns := rfl
    by_cases hn : isNotPassingMove n
    · rw [hstep]
      constructor
      · rw [List.filterMap_cons_some (show realTurnEntry (k, n) = some ((k : Int) + 1) by simp [realTurnEntry, hn]),
          List.sorted_cons]
        exact ⟨fun b hb => by have := ihb b hb; push_cast at this ⊢; omega, ihs⟩
      · intro v hv
        rw [List.filterMap_cons_some (show realTurnEntry (k, n) = some ((k : Int) + 1) by simp [realTurnEntry, hn])] at hv
        rcases List.mem_cons.mp hv with rfl | hv
        · omega
        · have := ihb v hv; omega
    · rw [hstep, List.filterMap_cons_none (show realTurnEntry (k, n) = none by simp [realTurnEntry, hn])]
      exact ⟨ihs, fun v hv => by have := ihb v hv; omega⟩

/-- Real-turn entries are exactly one per non-pass node. -/
theorem length_realTurns_enumFrom (nodes : List JStr) :
    ∀ k : Nat,
      ((List.enumFrom k nodes).filterMap realTurnEntry).length =
        (nodes.filter fun m => isNotPassingMove m).length := by
  induction nodes with
  | nil => intro k; rfl
  | cons n ns ih =>
    intro k
    have hstep : List.enumFrom k (n :: ns) = (k, n) :: List.enumFrom (k + 1) ns := rfl
    by_cases hn : isNotPassingMove n
    · rw [hstep, List.filterMap_cons_some (show realTurnEntry (k, n) = some ((k : Int) + 1) by simp [realTurnEntry, hn])]
      simp [hn, ih (k + 1)]
    · rw [hstep, List.filterMap_cons_none (show realTurnEntry (k, n) = none by simp [realTurnEntry, hn])]
      simp [hn, ih (k + 1)]

/-- C2: the turn map starts with 0, position `p` holds the real index of the
`p`-th non-pass move (the `filterMap` over the enumerated nodes), the map is
strictly increasing, and its length is one more than the number of non-pass
moves; concretely `;W[aa];B[];W[bb]` yields `[0, 1, 3]` of length `1 + 2`. -/
theorem makeRealTurnNumbersMap_spec :
    (∀ seq : JStr,
      makeRealTurnNumbersMap seq = 0 :: realTurnsOfNonPass (seqNodes seq) ∧
      (makeRealTurnNumbersMap seq).head? = some 0 ∧
      List.Sorted (· < ·) (makeRealTurnNumbersMap seq) ∧
      (makeRealTurnNumbersMap seq).length =
        1 + ((seqNodes seq).filter fun m => isNotPassingMove m).length) ∧
    makeRealTurnNumbersMap (codes ";W[aa];B[];W[bb]") = [0, 1, 3] ∧
    (makeRealTurnNumbersMap (codes ";W[aa];B[];W[bb]")).length = 1 + 2 := by
  refine ⟨?_, by decide, by decide⟩
  intro seq
  have hbody :
      makeRealTurnNumbersMap seq = 0 :: realTurnsOfNonPass (seqNodes seq) := by
    rw [makeRealTurnNumbersMap, map_filter_eq_filterMap, realTurnsOfNonPass]
  obtain ⟨hs, hb⟩ := sorted_realTurns_enumFrom (seqNodes seq) 0
  refine ⟨hbody, by rw [hbody]; rfl, ?_, ?_⟩
  · rw [hbody, List.sorted_cons]
    exact ⟨fun b hb' => hb b hb', hs⟩
  · rw [hbody]
    simp [realTurnsOfNonPass, List.enum, length_realTurns_enumFrom (seqNodes seq) 0]
    omega

/-! ## `src/katagoconv.js`: response merging (C5) -/

/-- `Array.prototype.indexOf` with a counter: the first index of `v`, else
`-1`. -/
def jsIndexOfAux (v : Int) : List Int → Nat → Int
  | [], _ => -1
  | t :: ts, i => if t = v then (i : Int) else jsIndexOfAux v ts (i + 1)

/-- `turns.indexOf(v)`. -/
def jsIndexOfInt (l : List Int) (v : Int) : Int := jsIndexOfAux v l 0

/-- `a.replace(/.*:/, '')`: everything after the last colon (the whole string
when there is no colon, since the regex then does not match). -/
def afterLastColon (l : JStr) : JStr :=
  (l.reverse.takeWhile fun c => c != 58).reverse

/-- `getTurnNumber` (katagoconv.js); `none` models `NaN`. -/
def getTurnNumber (a : JStr) : Option Int := jsParseIntDec (afterLastColon a)

/-- `mergeKataGoResponses` (katagoconv.js): keep the original lines whose
turn number is not found in `turns` (a `NaN` turn number is never found),
rejoin them with newlines, and append `revisited` verbatim. -/
def mergeKataGoResponses (original revisited : JStr) (turns : List Int) : JStr :=
  [(10 : Nat)].intercalate
      ((original.splitOn 10).filter fun l =>
        (match getTurnNumber l with
         | some v => jsIndexOfInt turns v
         | none => -1) == -1) ++
    revisited

/-- Specification-side keep predicate: the line's turn number is not in the
turn list (lines without a turn number are kept). -/
def specKeepLine (turns : List Int) (l : JStr) : Bool :=
  match getTurnNumber l with
  | some t => ! turns.contains t
  | none => true

/-- `indexOf` returns `-1` exactly for absent values. -/
theorem jsIndexOfAux_eq_neg_one (v : Int) :
    ∀ (l : List Int) (i : Nat), (jsIndexOfAux v l i = -1) ↔ v ∉ l := by
  intro l
  induction l with
  | nil => intro i; simp [jsIndexOfAux]
  | cons t ts ih =>
    intro i
    by_cases h : t = v
    · simp only [jsIndexOfAux, if_pos h, List.mem_cons]
      constructor
      · intro hi; omega
      · intro hni; exact absurd (Or.inl h.symm) hni
    · simp only [jsIndexOfAux, if_neg h, List.mem_cons, ih (i + 1)]
      constructor
      · intro hni hor
        rcases hor with rfl | hmem
        · exact h rfl
        · exact hni hmem
      · intro hni hmem; exact hni (Or.inr hmem)

/-- C5: on an original stream assembled from newline-free records, the merge
keeps exactly the records whose turn number is not in the turn list, in their
original relative order, and appends the revisit stream verbatim with no
re-sorting. -/
theorem mergeKataGoResponses_spec :
    ∀ (records : List JStr) (revisited : JStr) (turns : List Int),
      records ≠ [] → (∀ l ∈ records, (10 : Nat) ∉ l) →
      mergeKataGoResponses ([(10 : Nat)].intercalate records) revisited turns =
        [(10 : Nat)].intercalate (records.filter (specKeepLine turns)) ++ revisited := by
  intro records revisited turns hne hnl
  unfold mergeKataGoResponses
  rw [List.splitOn_intercalate records 10 hnl hne]
  have hfilter :
      (records.filter fun l =>
        (match getTurnNumber l with
         | some v => jsIndexOfInt turns v
         | none => -1) == -1) = records.filter (specKeepLine turns) := by
    apply List.filter_congr
    intro l _
    unfold specKeepLine
    cases getTurnNumber l with
    | none => rfl
    | some v =>
      by_cases hv : v ∈ turns
      · have : jsIndexOfInt turns v ≠ -1 := by
          rw [ne_eq, jsIndexOfInt, jsIndexOfAux_eq_neg_one]; simpa using hv
        simp [this, List.contains_iff_exists_mem_beq, hv]
      · have : jsIndexOfInt turns v = -1 := by
          rw [jsIndexOfInt, jsIndexOfAux_eq_neg_one]; exact hv
        simp [this, hv]
  rw [hfilter]

/-- C5 witness: merging two concrete records with a revisit stream. -/
theorem mergeKataGoResponses_spec_witness :
    mergeKataGoResponses ([(10 : Nat)].intercalate [codes "a:0", codes "a:1"])
        (codes "\nb:0") [0] =
      [(10 : Nat)].intercalate
          ([codes "a:0", codes "a:1"].filter (specKeepLine [0])) ++
        codes "\nb:0" :=
  mergeKataGoResponses_spec [codes "a:0", codes "a:1"] (codes "\nb:0") [0]
    (by decide) (by decide)

/-! ## `src/katagoconv.js`: win-rate-drop revisit detection (C4)

The response stream is modelled after JSON parsing: one record per line with
its turn number and root win rate (`rootInfo.winrate`), win rates as
rationals. -/

/-- One parsed KataGo response record. -/
structure KataGoResponse where
  turnNumber : Int
  winrate : ℚ

/-- Stable insertion keeping ascending turn numbers (the JavaScript
`sort((a, b) => a.turnNumber - b.turnNumber)` is a stable ascending sort). -/
def insertByTurn (x : KataGoResponse) : List KataGoResponse → List KataGoResponse
  | [] => [x]
  | y :: ys => if x.turnNumber ≤ y.turnNumber then x :: y :: ys else y :: insertByTurn x ys

/-- Stable sort of the records by ascending turn number. -/
def sortByTurnNumber (l : List KataGoResponse) : List KataGoResponse :=
  l.foldr insertByTurn []

/-- One step of the reducer in `winrateDropTurnsFromKataGoResponses`: the
accumulator keeps the turn list and, once a record has been seen, the previous
record's win rate and turn number (`none` models the initial accumulator whose
`winrate`/`turnNumber` fields are still undefined, so its comparison with
`cur.turnNumber - 1` fails).  When the previous record is the adjacent earlier
turn and the absolute win-rate change exceeds the threshold, the previous turn
number is appended. -/
def wdStep (winrateDrop : ℚ) (acc : List Int × Option (ℚ × Int)) (cur : KataGoResponse) :
    List Int × Option (ℚ × Int) :=
  let pushed : List Int :=
    match acc.2 with
    | some (w, t) =>
      if t = cur.turnNumber - 1 ∧ winrateDrop < |w - cur.winrate| then acc.1 ++ [t] else acc.1
    | none => acc.1
  (pushed, some (cur.winrate, cur.turnNumber))

/-- `winrateDropTurnsFromKataGoResponses` (katagoconv.js): sort the parsed
records by turn number and reduce with `wdStep`. -/
def winrateDropTurnsFromKataGoResponses (responses : List KataGoResponse)
    (winrateDrop : ℚ) : List Int :=
  ((sortByTurnNumber responses).foldl (wdStep winrateDrop) ([], none)).1

/-- The claim's concrete response stream: turns 0..3 with root win rates
0.50, 0.55, 0.40, 0.60. -/
def c4Responses : List KataGoResponse := [⟨0, 1/2⟩, ⟨1, 11/20⟩, ⟨2, 2/5⟩, ⟨3, 3/5⟩]

/-- Evaluation of the revisit detection on the claim's stream: both the
0.55→0.40 drop and the 0.40→0.60 rise exceed the 0.10 threshold in absolute
value, so turns 1 and 2 are flagged. -/
theorem winrateDropTurns_c4Responses_eval :
    winrateDropTurnsFromKataGoResponses c4Responses (1 / 10) = [1, 2] := by
  have h1 : ¬ ((10 : ℚ)⁻¹ < |(2 : ℚ)⁻¹ - 11 / 20|) := by
    rw [show (2 : ℚ)⁻¹ - 11 / 20 = -(1 / 20) by norm_num, abs_neg,
      abs_of_nonneg (by norm_num : (0 : ℚ) ≤ 1 / 20)]
    norm_num
  have h2 : (10 : ℚ)⁻¹ < |(11 : ℚ) / 20 - 2 / 5| := by
    rw [show (11 : ℚ) / 20 - 2 / 5 = 3 / 20 by norm_num,
      abs_of_nonneg (by norm_num : (0 : ℚ) ≤ 3 / 20)]
    norm_num
  have h3 : (10 : ℚ)⁻¹ < |(2 : ℚ) / 5 - 3 / 5| := by
    rw [show (2 : ℚ) / 5 - 3 / 5 = -(1 / 5) by norm_num, abs_neg,
      abs_of_nonneg (by norm_num : (0 : ℚ) ≤ 1 / 5)]
    norm_num
  simp [winrateDropTurnsFromKataGoResponses, sortByTurnNumber, insertByTurn, wdStep,
    c4Responses, h1, h2, h3]

/-- C4 counterexample: on win rates 0.50, 0.55, 0.40, 0.60 with threshold
0.10 the result is not `[1]` — the reducer takes the absolute difference, so
the 0.20 rise between turns 2 and 3 flags turn 2 as well. -/
theorem winrateDropTurns_claim_counterexample :
    winrateDropTurnsFromKataGoResponses c4Responses (1 / 10) ≠ [1] := by
  rw [winrateDropTurns_c4Responses_eval]; decide

/-- C4 (amended): the stream with root win rates 0.50, 0.55, 0.40, 0.60 and
threshold 0.10 yields exactly `[1, 2]`: every adjacent pair whose absolute
win-rate change exceeds the threshold flags the earlier turn, rises
included. -/
theorem winrateDropTurns_amended :
    winrateDropTurnsFromKataGoResponses c4Responses (1 / 10) = [1, 2] :=
  winrateDropTurns_c4Responses_eval

/-! ## `src/katagoconv.js`: analysis query building (C7, C10)

`rootAndSeqFromSGF` (the external `@sabaki/sgf` tokenizer plus first-child
walk) is modelled as already applied: the query builder takes the parsed root
properties and the linear main-line sequence.  Root properties are flattened
to their first value, as the source only reads `root.X[0]`.  The `id` field
(a timestamp) and the `parseFloat` of komi (floating point) are outside the
model; komi is carried as its raw string.  An `SZ` value that `parseInt`
cannot parse makes `sz` `NaN` in the source, whose only use is the
always-false comparison `NaN < 20`; this is modelled by the value 20. -/

/-- The root properties consumed by the query builder. -/
structure SGFRoot where
  AB : List JStr := []
  AW : List JStr := []
  KM : Option JStr := none
  PL : Option JStr := none
  SZ : Option JStr := none

/-- `initialStonesFromRoot` (katagoconv.js). -/
def initialStonesFromRoot (root : SGFRoot) : List (JStr × JStr) :=
  (root.AB.map fun pos => ([66], iaToJ1 pos)) ++ root.AW.map fun pos => ([87], iaToJ1 pos)

/-- `seqToKataGoMoves` (katagoconv.js): the non-pass nodes, each mapped to its
color letter and the COMPACT form of the two code points after the regex
match.  (`getD 0` is unreachable junk: the filter guarantees a match.) -/
def seqToKataGoMoves (seq : JStr) (sz : Int := 19) : List (JStr × JStr) :=
  ((seq.splitOn 59).filter fun move => isNotPassingMove move sz).map fun move =>
    let i := (searchMoveStart move).getD 0
    ([move.getD i 0], iaToJ1 ((move.drop (i + 2)).take 2))

/-- The fields of the analysis query built by `sgfToKataGoAnalysisQuery`. -/
structure KataGoQuery where
  komi : Option JStr
  initialPlayer : Option JStr
  initialStones : List (JStr × JStr)
  moves : List (JStr × JStr)
  analyzeTurns : List Int

/-- `sgfToKataGoAnalysisQuery` (katagoconv.js).  The move filter receives the
parsed board size; `hasPassingMoves` and `makeRealTurnNumbersMap` are called
without a size argument and so use their default 19. -/
def sgfToKataGoAnalysisQuery (root : SGFRoot) (seq : JStr)
    (analyzeTurnsOpt : Option (List Int)) : KataGoQuery :=
  let sz : Int :=
    match root.SZ with
    | some s =>
      match jsParseIntDec s with
      | some v => v
      | none => 20
    | none => 0
  let moves := seqToKataGoMoves seq sz
  let analyzeTurns : List Int :=
    match analyzeTurnsOpt with
    | none => (List.range (moves.length + 1)).map fun n => (n : Int)
    | some ts =>
      if hasPassingMoves seq then
        (ts.map fun turn => jsIndexOfInt (makeRealTurnNumbersMap seq) turn).filter
          fun t => t != -1
      else ts
  { komi := root.KM, initialPlayer := root.PL,
    initialStones := initialStonesFromRoot root,
    moves := moves, analyzeTurns := analyzeTurns }

/-- `indexOf` as the position found by `findIdx?`, offset by the counter,
with `-1` for absent values. -/
theorem jsIndexOfAux_eq_findIdx (v : Int) :
    ∀ (l : List Int) (i : Nat),
      jsIndexOfAux v l i =
        match List.findIdx? (fun t => t == v) l with
        | some k => ((i + k : Nat) : Int)
        | none => -1 := by
  intro l
  induction l with
  | nil => intro i; rfl
  | cons t ts ih =>
    intro i
    by_cases h : t = v
    · simp [jsIndexOfAux, h, List.findIdx?_cons]
    · rw [jsIndexOfAux, if_neg h, ih (i + 1), List.findIdx?_cons]
      have hb : ((t == v) : Bool) = false := by simp [h]
      rw [hb, if_neg (by simp), List.findIdx?_succ]
      cases List.findIdx? (fun x => x == v) ts with
      | none => rfl
      | some k =>
        simp only [Option.map_some']
        norm_num
        ring

/-- The source's map-`indexOf`-filter pipeline equals the sentinel-free
re-expression: each turn becomes its position in the map, positions that do
not exist are dropped. -/
theorem map_indexOf_filter_eq_filterMap (m : List Int) (ts : List Int) :
    ((ts.map fun turn => jsIndexOfInt m turn).filter fun t => t != -1) =
      ts.filterMap fun turn =>
        (List.findIdx? (fun v => v == turn) m).map fun k => (k : Int) := by
  induction ts with
  | nil => rfl
  | cons t ts ih =>
    cases hf : List.findIdx? (fun v => v == t) m with
    | none =>
      have hv : jsIndexOfInt m t = -1 := by
        rw [jsIndexOfInt, jsIndexOfAux_eq_findIdx, hf]
      simp [hv, hf, ih]
    | some k =>
      have hv : jsIndexOfInt m t = (k : Int) := by
        rw [jsIndexOfInt, jsIndexOfAux_eq_findIdx, hf]
        norm_num
      have hk : (((k : Int)) != -1) = true := by
        simp only [bne_iff_ne, ne_eq]
        omega
      simp [hv, hf, ih, hk]

/-- C7: with no caller-supplied `analyzeTurns` the query analyzes every index
from 0 through the move count inclusive; with caller-supplied turns on a
record with passing moves, each real turn number is re-expressed as its
position in the turn map and turns with no position are silently dropped. -/
theorem sgfToKataGoAnalysisQuery_analyzeTurns :
    (∀ (root : SGFRoot) (seq : JStr),
      (sgfToKataGoAnalysisQuery root seq none).analyzeTurns =
        (List.range ((sgfToKataGoAnalysisQuery root seq none).moves.length + 1)).map
          fun n => (n : Int)) ∧
    (∀ (root : SGFRoot) (seq : JStr) (ts : List Int), hasPassingMoves seq = true →
      (sgfToKataGoAnalysisQuery root seq (some ts)).analyzeTurns =
        ts.filterMap fun turn =>
          (List.findIdx? (fun v => v == turn) (makeRealTurnNumbersMap seq)).map
            fun k => (k : Int)) := by
  constructor
  · intro root seq; rfl
  · intro root seq ts h
    simp only [sgfToKataGoAnalysisQuery, h, if_true]
    exact map_indexOf_filter_eq_filterMap (makeRealTurnNumbersMap seq) ts

/-- C7 witness: the remapping on the sequence `;W[aa];B[];W[bb]` with caller
turns `[0, 1, 2, 3]`. -/
theorem sgfToKataGoAnalysisQuery_analyzeTurns_witness :
    (sgfToKataGoAnalysisQuery {} (codes ";W[aa];B[];W[bb]") (some [0, 1, 2, 3])).analyzeTurns =
      [0, 1, 2, 3].filterMap fun turn =>
        (List.findIdx? (fun v => v == turn)
            (makeRealTurnNumbersMap (codes ";W[aa];B[];W[bb]"))).map
          fun k => (k : Int) :=
  sgfToKataGoAnalysisQuery_analyzeTurns.2 {} (codes ";W[aa];B[];W[bb]") [0, 1, 2, 3]
    (by decide)

/-- C10 data: a 25×25 record whose sequence plays `tt`, a real point on that
board. -/
def c10Root : SGFRoot := { SZ := some (codes "25") }

/-- C10 data: the sequence with a `tt` move between two ordinary moves. -/
def c10Seq : JStr := codes ";W[aa];B[tt];W[bb]"

/-- C10: a `tt` node is a move for any size ≥ 20 but a pass under the default
size 19, and on the 25×25 record the query consequently emits all three moves
while the turn remapping, driven by the default-size pass rule, treats the
`tt` move as a pass: the map `[0, 1, 3]` is too short for the three emitted
moves and caller turns `[0, 1, 2, 3]` collapse to `[0, 1, 2]`. -/
theorem analyzeTurns_moves_inconsistency :
    (∀ sz : Int, 20 ≤ sz → ∀ bw : Nat, bw = 66 ∨ bw = 87 →
      isNotPassingMove [bw, 91, 116, 116, 93] sz = true ∧
      isNotPassingMove [bw, 91, 116, 116, 93] = false) ∧
    (sgfToKataGoAnalysisQuery c10Root c10Seq (some [0, 1, 2, 3])).moves =
      [([87], codes "A1"), ([66], codes "U20"), ([87], codes "B2")] ∧
    hasPassingMoves c10Seq 25 = false ∧
    hasPassingMoves c10Seq = true ∧
    makeRealTurnNumbersMap c10Seq = [0, 1, 3] ∧
    (makeRealTurnNumbersMap c10Seq).length ≠
      (sgfToKataGoAnalysisQuery c10Root c10Seq (some [0, 1, 2, 3])).moves.length + 1 ∧
    (sgfToKataGoAnalysisQuery c10Root c10Seq (some [0, 1, 2, 3])).analyzeTurns = [0, 1, 2] := by
  refine ⟨?_, by decide, by decide, by decide, by decide, by decide, by decide⟩
  intro sz hsz bw hbw
  have h20 : ¬ sz < 20 := by omega
  rcases hbw with rfl | rfl <;>
    exact ⟨by simp only [isNotPassingMove, if_neg h20]; decide, by decide⟩

/-- C10 witness: the size hypothesis discharged at 25 with a black `tt`
move. -/
theorem analyzeTurns_moves_inconsistency_witness :
    isNotPassingMove [66, 91, 116, 116, 93] 25 = true ∧
    isNotPassingMove [66, 91, 116, 116, 93] = false :=
  analyzeTurns_moves_inconsistency.1 25 (by decide) 66 (Or.inl rfl)

/-! ## `src/game-report.js`: move classification (C8)

`GameReport`'s constructor derives one record per game-tree node with the
node's color and win-rate/score drops; nodes that were never analyzed carry
`undefined` drops, modelled by `none`.  JavaScript comparisons and truthiness
on a possibly `undefined` number are made explicit below: any comparison with
`undefined` is false, and `undefined` (like 0) is falsy. -/

/-- One entry of the `drops` array built in the `GameReport` constructor. -/
structure MoveDrop where
  index : Nat
  pl : JStr
  winrateDrop : Option ℚ
  scoreDrop : Option ℚ
deriving DecidableEq

/-- The three thresholds held by the `GameReport` object
(`goodmovewinrate`, `badmovewinrate`, `badhotspotwinrate`). -/
structure GameStat where
  goodmovewinrate : ℚ
  badmovewinrate : ℚ
  badhotspotwinrate : ℚ

/-- `a < b` with a possibly-`undefined` left operand. -/
def jsLtOpt (a : Option ℚ) (b : ℚ) : Bool :=
  match a with
  | some q => decide (q < b)
  | none => false

/-- `a >= b` with a possibly-`undefined` left operand. -/
def jsGeOpt (a : Option ℚ) (b : ℚ) : Bool :=
  match a with
  | some q => decide (b ≤ q)
  | none => false

/-- Truthiness of a possibly-`undefined` number. -/
def jsTruthy (a : Option ℚ) : Bool :=
  match a with
  | some q => decide (q ≠ 0)
  | none => false

/-- Stable descending insertion by a key (the JavaScript
`sort((a, b) => key(b) - key(a))`, which is stable). -/
def insertDescBy (key : MoveDrop → ℚ) (x : MoveDrop) : List MoveDrop → List MoveDrop
  | [] => [x]
  | y :: ys => if key y ≤ key x then x :: y :: ys else y :: insertDescBy key x ys

/-- Stable descending sort by a key. -/
def sortDescBy (key : MoveDrop → ℚ) (l : List MoveDrop) : List MoveDrop :=
  l.foldr (insertDescBy key) []

/-- `makeGoodBads` (game-report.js): the seven buckets for one player —
good, not bad, bad, bad hot spots, top-10 win-rate drops, top-10 score
drops, and all of the player's entries. -/
def makeGoodBads (pl : JStr) (drops : List MoveDrop) (stat : GameStat) :
    List (List MoveDrop) :=
  [drops.filter fun n => n.pl == pl && jsLtOpt n.winrateDrop stat.goodmovewinrate,
   drops.filter fun n => n.pl == pl && jsLtOpt n.winrateDrop stat.badmovewinrate,
   drops.filter fun n => n.pl == pl && jsGeOpt n.winrateDrop stat.badmovewinrate,
   drops.filter fun n => n.pl == pl && jsGeOpt n.winrateDrop stat.badhotspotwinrate,
   (sortDescBy (fun n => n.winrateDrop.getD 0)
       (drops.filter fun n => n.pl == pl && jsTruthy n.winrateDrop)).take 10,
   (sortDescBy (fun n => n.scoreDrop.getD 0)
       (drops.filter fun n => n.pl == pl && jsTruthy n.scoreDrop)).take 10,
   drops.filter fun n => n.pl == pl]

/-- C8: for thresholds with `goodCeiling < badFloor ≤ hotSpotFloor`, a move of
the player with win-rate drop `d` lands in the good bucket iff
`d < goodCeiling`, in the acceptable bucket iff `d < badFloor`, in the bad
bucket iff `d ≥ badFloor`, and in the hot-spot bucket iff `d ≥ hotSpotFloor`;
hence good members are acceptable and hot-spot members are bad. -/
theorem makeGoodBads_classification :
    ∀ (pl : JStr) (drops : List MoveDrop) (stat : GameStat) (n : MoveDrop) (d : ℚ),
      stat.goodmovewinrate < stat.badmovewinrate →
      stat.badmovewinrate ≤ stat.badhotspotwinrate →
      n ∈ drops → n.pl = pl → n.winrateDrop = some d →
      ((n ∈ (makeGoodBads pl drops stat).getD 0 [] ↔ d < stat.goodmovewinrate) ∧
       (n ∈ (makeGoodBads pl drops stat).getD 1 [] ↔ d < stat.badmovewinrate) ∧
       (n ∈ (makeGoodBads pl drops stat).getD 2 [] ↔ stat.badmovewinrate ≤ d) ∧
       (n ∈ (makeGoodBads pl drops stat).getD 3 [] ↔ stat.badhotspotwinrate ≤ d) ∧
       (n ∈ (makeGoodBads pl drops stat).getD 0 [] →
         n ∈ (makeGoodBads pl drops stat).getD 1 []) ∧
       (n ∈ (makeGoodBads pl drops stat).getD 3 [] →
         n ∈ (makeGoodBads pl drops stat).getD 2 [])) := by
  intro pl drops stat n d hgb hbh hn hpl hd
  have h0 : n ∈ (makeGoodBads pl drops stat).getD 0 [] ↔ d < stat.goodmovewinrate := by
    simp [makeGoodBads, List.getD_cons_zero, List.mem_filter, hn, hpl, hd, jsLtOpt]
  have h1 : n ∈ (makeGoodBads pl drops stat).getD 1 [] ↔ d < stat.badmovewinrate := by
    simp [makeGoodBads, List.getD_cons_succ, List.getD_cons_zero, List.mem_filter,
      hn, hpl, hd, jsLtOpt]
  have h2 : n ∈ (makeGoodBads pl drops stat).getD 2 [] ↔ stat.badmovewinrate ≤ d := by
    simp [makeGoodBads, List.getD_cons_succ, List.getD_cons_zero, List.mem_filter,
      hn, hpl, hd, jsGeOpt]
  have h3 : n ∈ (makeGoodBads pl drops stat).getD 3 [] ↔ stat.badhotspotwinrate ≤ d := by
    simp [makeGoodBads, List.getD_cons_succ, List.getD_cons_zero, List.mem_filter,
      hn, hpl, hd, jsGeOpt]
  exact ⟨h0, h1, h2, h3,
    fun h => h1.mpr (lt_trans (h0.mp h) hgb),
    fun h => h2.mpr (le_trans hbh (h3.mp h))⟩

/-- C8 data: a black move with drop 0.03 and a black move with drop 0.20. -/
def c8Drops : List MoveDrop :=
  [⟨0, codes "B", some (3 / 100), some 0⟩, ⟨1, codes "B", some (1 / 5), some 0⟩]

/-- C8 data: thresholds 0.05 / 0.06 / 0.15. -/
def c8Stat : GameStat := ⟨1 / 20, 3 / 50, 3 / 20⟩

/-- C8 witness: drop 0.03 against the good ceiling 0.05 and drop 0.20 against
the hot-spot floor 0.15. -/
theorem makeGoodBads_classification_witness :
    ((⟨0, codes "B", some (3 / 100), some 0⟩ : MoveDrop) ∈
        (makeGoodBads (codes "B") c8Drops c8Stat).getD 0 [] ↔ (3 : ℚ) / 100 < 1 / 20) ∧
    ((⟨1, codes "B", some (1 / 5), some 0⟩ : MoveDrop) ∈
        (makeGoodBads (codes "B") c8Drops c8Stat).getD 3 [] ↔ (3 : ℚ) / 20 ≤ 1 / 5) :=
  ⟨(makeGoodBads_classification (codes "B") c8Drops c8Stat
      ⟨0, codes "B", some (3 / 100), some 0⟩ (3 / 100) (by norm_num [c8Stat]) (by norm_num [c8Stat])
      (List.mem_cons_self _ _) rfl rfl).1,
   (makeGoodBads_classification (codes "B") c8Drops c8Stat
      ⟨1, codes "B", some (1 / 5), some 0⟩ (1 / 5) (by norm_num [c8Stat]) (by norm_num [c8Stat])
      (List.mem_cons_of_mem _ (List.mem_cons_self _ _)) rfl rfl).2.2.2.1⟩

/-! ## C9: behavior of the conversions outside the supported domain -/

/-- The specification's supported RAW domain: two letters `a`..`z` minus the
reserved letter, within a board of size at most 25 (so `a`..`y`). -/
def specValidRaw (v : JStr) : Bool :=
  v.length == 2 && v.all (fun c => 97 ≤ c && c ≤ 121) && ! (v.getD 0 0 == 105)

/-- The conversion as the specification describes it: a `RangeError`
(modelled as `Except.error`) outside the supported domain, the source's
conversion inside it. -/
def specIaToJ1Checked (v : JStr) : Except Unit JStr :=
  if specValidRaw v then Except.ok (iaToJ1 v) else Except.error ()

/-- C9 counterexample: `zz` lies outside the supported domain, so the claim
mandates a `RangeError`; the source's conversion instead returns the plain
string `[26` — no code path of `iaToJ1`, `iaToJ19` or `iaFromJ1` throws. -/
theorem coordConversion_claim_counterexample :
    specValidRaw [122, 122] = false ∧
    specIaToJ1Checked [122, 122] = Except.error () ∧
    iaToJ1 [122, 122] = [91, 50, 54] ∧
    (Except.error () : Except Unit JStr) ≠ Except.ok (iaToJ1 [122, 122]) :=
  ⟨by decide, rfl, by decide, fun h => Except.noConfusion h⟩

/-- C9 (amended): outside the supported domain the conversions neither raise
nor clamp: they are total and return out-of-range garbage — `zz` becomes
`[26` (COMPACT) and `[-6` (DISPLAY), converting `[26` back yields `Zz` rather
than `zz`, and the out-of-domain COMPACT `A0` becomes the non-letter string
`` a` ``. -/
theorem coordConversion_amended :
    iaToJ1 [122, 122] = [91, 50, 54] ∧
    iaToJ19 [122, 122] = [91, 45, 54] ∧
    iaFromJ1 (iaToJ1 [122, 122]) = [90, 122] ∧
    iaFromJ1 (iaToJ1 [122, 122]) ≠ [122, 122] ∧
    iaFromJ1 [65, 48] = [97, 96] := by decide

end AnalyzeSGF
